import Mathlib

/-!
Shallow embedding of `src/main.py` (a two-stage reasoning/answer orchestrator).

The streamed HTTP responses are modelled as a status code plus the list of
lines that `response.iter_lines()` would yield, each line already classified
by its surface shape:
  * `noData raw`   — an empty line or a line without the `data: ` marker
                     (the code skips these);
  * `done`         — the line `data: [DONE]`;
  * `chunk c`      — `data: ` followed by JSON that decodes to a chunk `c`;
  * `malformed raw`— `data: ` followed by text that raises `json.JSONDecodeError`.

Inside a decoded chunk only the fields the code reads are modelled.  Python
distinctions that the code cannot observe are collapsed:
  * `choices` key absent and `choices == []` both fail the guard
    `'choices' in chunk and chunk['choices']`, so `choices : List Choice`
    with `[]` covers both;
  * `finish_reason` key absent and `finish_reason == None` both fall through
    the finish test, so `finish_reason : Option String` with `none` covers
    both and `some r` is a non-null finish reason;
  * `delta` key presence is `delta : Option Delta`;
  * `reasoning_content` / `content` key presence is an `Option String`
    (a JSON `null` value behaves like the empty string under Python
    truthiness in every branch the code has).

`last_reasoning_content_time` is only ever compared against `None`, so it is
modelled as the `Bool` "a reasoning_content field has been seen".
`time.time()` timestamps are abstracted to `Nat`.
-/

inductive Role where
  | system
  | user
  | assistant
  deriving DecidableEq, Repr

structure Message where
  role : Role
  content : String
  deriving DecidableEq, Repr

structure Delta where
  reasoning_content : Option String
  content : Option String
  deriving DecidableEq, Repr

structure Choice where
  delta : Option Delta
  finish_reason : Option String
  deriving DecidableEq, Repr

structure Chunk where
  choices : List Choice
  deriving DecidableEq, Repr

inductive SSELine where
  | noData (raw : String)
  | done
  | chunk (c : Chunk)
  | malformed (raw : String)
  deriving DecidableEq, Repr

structure HttpResponse where
  status_code : Nat
  lines : List SSELine
  deriving DecidableEq, Repr

/-- Result of one stage call: `result` is the returned value (`none` models
Python `return None` on a non-success status) and `closed` records whether
`response.close()` was invoked before returning. -/
structure StageResult where
  result : Option String
  closed : Bool
  deriving DecidableEq, Repr

/-- The event-consumption loop of `get_deepseek_reasoning_stream`
(src/main.py lines 179-225).  Arguments: remaining lines, the accumulator
`reasoning_content`, and the flag `last_reasoning_content_time is not None`.
Returns the final `reasoning_content` together with `reasoning_finished`. -/
def ds_consume : List SSELine → String → Bool → String × Bool
  | [], acc, _ => (acc, false)
  | SSELine.noData _ :: rest, acc, seen => ds_consume rest acc seen
  | SSELine.done :: _, acc, _ => (acc, false)
  | SSELine.malformed _ :: rest, acc, seen => ds_consume rest acc seen
  | SSELine.chunk c :: rest, acc, seen =>
    match c.choices with
    | [] => ds_consume rest acc seen
    | ch :: _ =>
      if ch.finish_reason.isSome then
        (acc, false)
      else
        match ch.delta with
        | none => ds_consume rest acc seen
        | some d =>
          match d.reasoning_content with
          | some rc => ds_consume rest (if rc.isEmpty then acc else acc ++ rc) true
          | none =>
            match d.content with
            | some _ => if seen then (acc, true) else ds_consume rest acc seen
            | none => ds_consume rest acc seen

/-- `get_deepseek_reasoning_stream` (src/main.py lines 124-232), with the
request construction and printing elided: on a non-200 status it returns
`None` (and never touches the stream); otherwise it runs the consumption
loop and calls `response.close()` exactly when `reasoning_finished` is set. -/
def get_deepseek_reasoning_stream (resp : HttpResponse) : StageResult :=
  if resp.status_code ≠ 200 then
    { result := none, closed := false }
  else
    let p := ds_consume resp.lines "" false
    { result := some p.1, closed := p.2 }

/-- The event-consumption loop of `get_openai_answer_stream`
(src/main.py lines 290-317): accumulates every truthy `content` delta,
stops at `[DONE]` or end of stream, skips everything else.  Note that the
loop never reads `finish_reason`. -/
def oa_consume : List SSELine → String → String
  | [], acc => acc
  | SSELine.noData _ :: rest, acc => oa_consume rest acc
  | SSELine.done :: _, acc => acc
  | SSELine.malformed _ :: rest, acc => oa_consume rest acc
  | SSELine.chunk c :: rest, acc =>
    match c.choices with
    | [] => oa_consume rest acc
    | ch :: _ =>
      match ch.delta with
      | none => oa_consume rest acc
      | some d =>
        match d.content with
        | some s => oa_consume rest (if s.isEmpty then acc else acc ++ s)
        | none => oa_consume rest acc

/-- `get_openai_answer_stream` (src/main.py lines 235-320): `None` on a
non-200 status, the accumulated answer otherwise.  The function contains no
`response.close()` call on any path, hence `closed := false` always. -/
def get_openai_answer_stream (resp : HttpResponse) : StageResult :=
  if resp.status_code ≠ 200 then
    { result := none, closed := false }
  else
    { result := some (oa_consume resp.lines ""), closed := false }

/-- One entry of `ConversationHistory.history` (src/main.py lines 37-42). -/
structure Interaction where
  user_query : String
  reasoning : String
  ai_response : String
  timestamp : Nat
  deriving DecidableEq, Repr

/-- `ConversationHistory` (src/main.py lines 17-26). -/
structure ConversationHistory where
  history : List Interaction
  max_history : Nat
  deriving DecidableEq, Repr

/-- Python's slice `l[-m:]`.  Because `-0 == 0` in Python, `m = 0` yields the
whole list, not the empty list; for `m > 0` it is the last `m` elements,
i.e. `List.rtake`. -/
def pySliceLast (l : List α) (m : Nat) : List α :=
  if m = 0 then l else l.rtake m

/-- `ConversationHistory.add_interaction` (src/main.py lines 28-46):
append the new entry, then truncate with `self.history[-self.max_history:]`
when the length exceeds `max_history`. -/
def add_interaction (h : ConversationHistory) (q r a : String) (t : Nat) :
    ConversationHistory :=
  let hist := h.history ++ [{ user_query := q, reasoning := r, ai_response := a,
                              timestamp := t }]
  { h with history := if hist.length > h.max_history then pySliceLast hist h.max_history
                      else hist }

/-- `ConversationHistory.get_conversation_for_deepseek`
(src/main.py lines 48-68): starting from `[]`, append a user/assistant pair
for each stored interaction. -/
def get_conversation_for_deepseek (h : ConversationHistory) : List Message :=
  h.history.foldl
    (fun msgs i =>
      msgs ++ [{ role := Role.user, content := i.user_query },
               { role := Role.assistant, content := i.ai_response }])
    []

/-- Stage identifiers, used to record which stage calls `process_question`
performs and in which order. -/
inductive Stage where
  | reasoning
  | answer
  deriving DecidableEq, Repr

/-- `process_question` (src/main.py lines 323-352), with the two stage calls
fed by the modelled HTTP responses.  The returned list records, in program
order, the stages actually invoked: the answer stage is called only after
the reasoning stage returned a non-`None` result.  `t` is the `time.time()`
value used by `add_interaction`. -/
def process_question (respR respA : HttpResponse) (q : String)
    (h : ConversationHistory) (t : Nat) : Bool × ConversationHistory × List Stage :=
  match (get_deepseek_reasoning_stream respR).result with
  | none => (false, h, [Stage.reasoning])
  | some reasoning =>
    match (get_openai_answer_stream respA).result with
    | none => (false, h, [Stage.reasoning, Stage.answer])
    | some answer =>
      (true, add_interaction h q reasoning answer t, [Stage.reasoning, Stage.answer])

/-- A `data: ` line whose chunk carries a `reasoning_content` delta. -/
def rdLine (s : String) : SSELine :=
  SSELine.chunk { choices := [{ delta := some { reasoning_content := some s,
                                                content := none },
                                finish_reason := none }] }

/-- A `data: ` line whose chunk carries a plain `content` delta. -/
def adLine (s : String) : SSELine :=
  SSELine.chunk { choices := [{ delta := some { reasoning_content := none,
                                                content := some s },
                                finish_reason := none }] }

/-- A `data: ` line whose chunk carries a non-null `finish_reason` and no
delta fields. -/
def finishLine (r : String) : SSELine :=
  SSELine.chunk { choices := [{ delta := none, finish_reason := some r }] }

/-- Written from the spec's words for 4.4 `buildReasoningContext` (the
refinement target of claim C9): one user/assistant Message pair per stored
Turn, oldest first, no system message, never touching the reasoning text. -/
def buildReasoningContextSpec (h : ConversationHistory) : List Message :=
  h.history.flatMap fun i =>
    [{ role := Role.user, content := i.user_query },
     { role := Role.assistant, content := i.ai_response }]

/-- Bundle one `add_interaction` argument tuple into the stored entry. -/
def mkInteraction : String × String × String × Nat → Interaction
  | (q, r, a, t) => { user_query := q, reasoning := r, ai_response := a, timestamp := t }

/-- Iterated `add_interaction`: commit a whole sequence of rounds. -/
def commitAll (h : ConversationHistory) :
    List (String × String × String × Nat) → ConversationHistory
  | [] => h
  | (q, r, a, t) :: ts => commitAll (add_interaction h q r a t) ts

/-- The code's conditional append `if delta['content']: ... += delta['content']`
is extensionally a plain append, because appending the empty string is the
identity. -/
theorem condAppend_eq_append (acc s : String) :
    (if s.isEmpty then acc else acc ++ s) = acc ++ s := by
  by_cases h : s.isEmpty
  · rw [if_pos h, (String.isEmpty_iff s).mp h, String.append_empty]
  · rw [if_neg h]

/-- Claim C1: with the parsed prefix `ReasoningDelta "a"`, `ReasoningDelta "b"`,
`AnswerDelta "x"`, the reasoning extractor returns the accumulated text
`"ab"`, the result is independent of every later event (it stops consuming at
the `AnswerDelta`), and the connection is closed (`reasoning_finished` is set,
so `response.close()` runs). -/
theorem C1_reasoning_early_termination (rest : List SSELine) :
    get_deepseek_reasoning_stream
        { status_code := 200,
          lines := rdLine "a" :: rdLine "b" :: adLine "x" :: rest } =
      { result := some "ab", closed := true } := by
  rfl

/-- Claim C2: an empty `ReasoningDelta` sets the have-seen-reasoning flag
without appending anything, and consequently a subsequent `AnswerDelta`
triggers early termination (result returned, connection closed) even though
every reasoning delta seen was empty. -/
theorem C2_empty_delta_sets_flag :
    (∀ (rest : List SSELine) (acc : String) (seen : Bool),
        ds_consume (rdLine "" :: rest) acc seen = ds_consume rest acc true) ∧
    (∀ (x : String) (rest : List SSELine),
        get_deepseek_reasoning_stream
            { status_code := 200, lines := rdLine "" :: adLine x :: rest } =
          { result := some "", closed := true }) := by
  constructor
  · intro rest acc seen
    rfl
  · intro x rest
    rfl

/-- Claim C8: on a success status with event sequence
`[ReasoningDelta "", StreamEnd]`, the reasoning extractor returns the empty
string as a successful, non-`None` result. -/
theorem C8_empty_reasoning_is_success :
    get_deepseek_reasoning_stream
        { status_code := 200, lines := [rdLine "", SSELine.done] } =
      { result := some "", closed := false } ∧
    (get_deepseek_reasoning_stream
        { status_code := 200, lines := [rdLine "", SSELine.done] }).result ≠ none := by
  decide

/-- Claim C10: an `AnswerDelta` that arrives while no `reasoning_content`
field has been seen yet is skipped: nothing is accumulated, extraction does
not terminate, and consumption continues with the remaining events.  In
particular prepending such an event to a stream does not change the stage's
result at all. -/
theorem C10_content_before_reasoning_ignored (s : String) (rest : List SSELine) :
    (∀ acc : String, ds_consume (adLine s :: rest) acc false = ds_consume rest acc false) ∧
    get_deepseek_reasoning_stream { status_code := 200, lines := adLine s :: rest } =
      get_deepseek_reasoning_stream { status_code := 200, lines := rest } := by
  constructor
  · intro acc
    rfl
  · rfl

/-- Claim C7: a malformed line is skipped by the answer streamer — it never
stops consumption and never contributes to the result — so with one malformed
line sandwiched between two `AnswerDelta` events the accumulated answer is
exactly the concatenation of the two delta texts. -/
theorem C7_malformed_line_skipped (s1 s2 raw : String) :
    (∀ (rest : List SSELine) (acc : String),
        oa_consume (SSELine.malformed raw :: rest) acc = oa_consume rest acc) ∧
    get_openai_answer_stream
        { status_code := 200,
          lines := [adLine s1, SSELine.malformed raw, adLine s2, SSELine.done] } =
      { result := some (s1 ++ s2), closed := false } := by
  constructor
  · intro rest acc
    rfl
  · show ({ result := some (oa_consume _ ""), closed := false } : StageResult) = _
    rw [show oa_consume [adLine s1, SSELine.malformed raw, adLine s2, SSELine.done] "" =
          (if s2.isEmpty then (if s1.isEmpty then "" else "" ++ s1)
           else (if s1.isEmpty then "" else "" ++ s1) ++ s2) from rfl]
    rw [condAppend_eq_append, condAppend_eq_append, String.empty_append]

/-- Claim C5 counterexample: the reasoning stage exits through the
finish-signal path and through the natural `[DONE]` path with
`closed = false` (no `response.close()` happened), and the answer stage also
reports `closed = false` on its natural end — refuting "on every exit path
the connection is closed before the stage returns". -/
theorem C5_counterexample :
    get_deepseek_reasoning_stream { status_code := 200, lines := [finishLine "stop"] } =
      { result := some "", closed := false } ∧
    get_deepseek_reasoning_stream { status_code := 200, lines := [SSELine.done] } =
      { result := some "", closed := false } ∧
    get_openai_answer_stream { status_code := 200, lines := [SSELine.done] } =
      { result := some "", closed := false } := by
  decide

/-- Claim C5 (amended): `response.close()` is invoked exactly on the
reasoning stage's proactive early-close path — a success status whose
consumption loop ends by the reasoning-to-answer content transition
(`reasoning_finished = true`); every other exit of either stage returns
without an explicit close (the answer stage never closes). -/
theorem C5_close_only_on_reasoning_transition (resp : HttpResponse) :
    ((get_deepseek_reasoning_stream resp).closed = true ↔
        resp.status_code = 200 ∧ (ds_consume resp.lines "" false).2 = true) ∧
    (get_openai_answer_stream resp).closed = false := by
  constructor
  · unfold get_deepseek_reasoning_stream
    by_cases h : resp.status_code = 200
    · simp [h]
    · simp [h]
  · unfold get_openai_answer_stream
    by_cases h : resp.status_code = 200 <;> simp [h]

theorem C5_close_only_on_reasoning_transition_witness :
    (get_deepseek_reasoning_stream
        { status_code := 200, lines := [rdLine "r", adLine "c"] }).closed = true :=
  (C5_close_only_on_reasoning_transition
      { status_code := 200, lines := [rdLine "r", adLine "c"] }).1.mpr ⟨rfl, rfl⟩

/-- Claim C6 counterexample: with the stream
`[AnswerDelta "a", FinishSignal, AnswerDelta "b", DONE]` the answer streamer
returns `"ab"`, not the `"a"` accumulated when the finish signal arrived —
so a `FinishSignal` is not treated as a stop at this stage. -/
theorem C6_counterexample :
    get_openai_answer_stream
        { status_code := 200,
          lines := [adLine "a", finishLine "stop", adLine "b", SSELine.done] } =
      { result := some "ab", closed := false } ∧
    ("ab" : String) ≠ "a" := by
  decide

/-- Claim C6 (amended): the answer-stage loop never reads `finish_reason`; a
`FinishSignal` chunk anywhere in the stream is simply skipped, and
consumption continues (stopping only at `[DONE]` or stream end), so content
deltas after the finish signal are still accumulated. -/
theorem C6_finish_signal_skipped (pre rest : List SSELine) (acc r : String) :
    oa_consume (pre ++ finishLine r :: rest) acc = oa_consume (pre ++ rest) acc := by
  induction pre generalizing acc with
  | nil => rfl
  | cons l pre ih =>
    cases l with
    | noData raw => exact ih acc
    | done => rfl
    | malformed raw => exact ih acc
    | chunk c =>
      rcases c with ⟨choices⟩
      rcases choices with _ | ⟨ch, chs⟩
      · exact ih acc
      · rcases ch with ⟨d, fr⟩
        rcases d with _ | ⟨d⟩
        · exact ih acc
        · rcases d with ⟨rc, co⟩
          rcases co with _ | ⟨s⟩
          · exact ih acc
          · exact ih _

/-- Claim C4: commit is all-or-nothing.  If the reasoning stage fails
(returns `None`) the answer stage is never invoked and the history is
unchanged; if the answer stage fails the history is unchanged; a Turn is
committed exactly when both stages returned text, and it is the full
question/reasoning/answer triple. -/
theorem C4_commit_all_or_nothing (respR respA : HttpResponse) (q : String)
    (h : ConversationHistory) (t : Nat) :
    ((get_deepseek_reasoning_stream respR).result = none →
        process_question respR respA q h t = (false, h, [Stage.reasoning])) ∧
    ((get_openai_answer_stream respA).result = none →
        (process_question respR respA q h t).2.1 = h) ∧
    (∀ r a, (get_deepseek_reasoning_stream respR).result = some r →
        (get_openai_answer_stream respA).result = some a →
        process_question respR respA q h t =
          (true, add_interaction h q r a t, [Stage.reasoning, Stage.answer])) := by
  refine ⟨?_, ?_, ?_⟩
  · intro hr
    unfold process_question
    rw [hr]
  · intro ha
    unfold process_question
    cases hrr : (get_deepseek_reasoning_stream respR).result with
    | none => rfl
    | some r => rw [ha]
  · intro r a hr ha
    unfold process_question
    rw [hr, ha]

theorem C4_commit_all_or_nothing_witness :
    process_question { status_code := 500, lines := [] } { status_code := 200, lines := [] }
        "q" { history := [], max_history := 100 } 0 =
      (false, { history := [], max_history := 100 }, [Stage.reasoning]) ∧
    (process_question { status_code := 200, lines := [] } { status_code := 500, lines := [] }
        "q" { history := [], max_history := 100 } 0).2.1 =
      { history := [], max_history := 100 } ∧
    process_question { status_code := 200, lines := [rdLine "r"] }
        { status_code := 200, lines := [adLine "a"] }
        "q" { history := [], max_history := 100 } 0 =
      (true, add_interaction { history := [], max_history := 100 } "q" "r" "a" 0,
       [Stage.reasoning, Stage.answer]) :=
  ⟨(C4_commit_all_or_nothing _ _ _ _ _).1 rfl,
   (C4_commit_all_or_nothing _ _ _ _ _).2.1 rfl,
   (C4_commit_all_or_nothing _ _ _ _ _).2.2 "r" "a" (by decide) (by decide)⟩

/-- The history fold of `get_conversation_for_deepseek`, generalized over the
starting accumulator. -/
theorem foldl_pairs_eq_flatMap (l : List Interaction) (acc : List Message) :
    l.foldl
        (fun msgs i =>
          msgs ++ [{ role := Role.user, content := i.user_query },
                   { role := Role.assistant, content := i.ai_response }])
        acc =
      acc ++ l.flatMap
        (fun i =>
          [{ role := Role.user, content := i.user_query },
           { role := Role.assistant, content := i.ai_response }]) := by
  induction l generalizing acc with
  | nil => simp
  | cons i l ih => simp [ih, List.flatMap_cons, List.append_assoc]

/-- Claim C9: the reasoning-stage context is exactly the alternating
`[user q1, assistant a1, user q2, assistant a2, ...]` list, oldest Turn
first, with no system message (and, being built from `user_query` /
`ai_response` only, no reasoning text). -/
theorem C9_reasoning_context_alternating (h : ConversationHistory) :
    get_conversation_for_deepseek h = buildReasoningContextSpec h ∧
    ∀ m ∈ get_conversation_for_deepseek h, m.role ≠ Role.system := by
  have key : get_conversation_for_deepseek h = buildReasoningContextSpec h := by
    unfold get_conversation_for_deepseek buildReasoningContextSpec
    rw [foldl_pairs_eq_flatMap, List.nil_append]
  refine ⟨key, ?_⟩
  rw [key]
  unfold buildReasoningContextSpec
  intro m hm
  rcases List.mem_flatMap.mp hm with ⟨i, _, hmem⟩
  rcases List.mem_cons.mp hmem with h1 | hmem2
  · rw [h1]
    intro hc
    exact Role.noConfusion hc
  · rcases List.mem_cons.mp hmem2 with h1 | h1
    · rw [h1]
      intro hc
      exact Role.noConfusion hc
    · exact absurd h1 (List.not_mem_nil m)

theorem C9_reasoning_context_alternating_witness :
    get_conversation_for_deepseek
        { history := [{ user_query := "q1", reasoning := "r1", ai_response := "a1",
                        timestamp := 0 }], max_history := 100 } =
      buildReasoningContextSpec
        { history := [{ user_query := "q1", reasoning := "r1", ai_response := "a1",
                        timestamp := 0 }], max_history := 100 } ∧
    ({ role := Role.user, content := "q1" } : Message).role ≠ Role.system :=
  ⟨(C9_reasoning_context_alternating _).1,
   (C9_reasoning_context_alternating
      { history := [{ user_query := "q1", reasoning := "r1", ai_response := "a1",
                      timestamp := 0 }], max_history := 100 }).2
     { role := Role.user, content := "q1" } (by decide)⟩

theorem length_rtake (l : List α) (n : Nat) : (l.rtake n).length = min n l.length := by
  simp only [List.rtake, List.length_drop]
  omega

theorem rtake_all (l : List α) (n : Nat) (h : l.length ≤ n) : l.rtake n = l := by
  simp only [List.rtake, Nat.sub_eq_zero_of_le h, List.drop_zero]

theorem take_append_take_self (a b : List α) (n : Nat) :
    (a ++ b.take n).take n = (a ++ b).take n := by
  rw [List.take_append_eq_append_take, List.take_append_eq_append_take, List.take_take,
      Nat.min_eq_left (Nat.sub_le n a.length)]

/-- Re-taking the last `n` elements after appending more is the same as
taking the last `n` of the whole concatenation. -/
theorem rtake_append_left (l m : List α) (n : Nat) :
    (l.rtake n ++ m).rtake n = (l ++ m).rtake n := by
  have h1 : (l.rtake n ++ m).reverse = m.reverse ++ l.reverse.take n := by
    rw [List.reverse_append, List.rtake_eq_reverse_take_reverse, List.reverse_reverse]
  rw [List.rtake_eq_reverse_take_reverse (l.rtake n ++ m) n,
      List.rtake_eq_reverse_take_reverse (l ++ m) n, h1, List.reverse_append,
      take_append_take_self]

theorem add_interaction_max (h : ConversationHistory) (q r a : String) (t : Nat) :
    (add_interaction h q r a t).max_history = h.max_history := by
  unfold add_interaction
  rfl

/-- With a non-zero capacity, one commit always leaves exactly the last
`max_history` elements of the appended list (when nothing is evicted the two
sides agree because `rtake` of a short list is the identity). -/
theorem add_interaction_history (h : ConversationHistory) (q r a : String) (t : Nat)
    (hcap : h.max_history ≠ 0) :
    (add_interaction h q r a t).history =
      (h.history ++ [mkInteraction (q, r, a, t)]).rtake h.max_history := by
  unfold add_interaction pySliceLast mkInteraction
  by_cases hlen :
      (h.history ++ [Interaction.mk q r a t]).length > h.max_history
  · simp only [if_pos hlen, if_neg hcap]
  · simp only [if_neg hlen]
    exact (rtake_all _ _ (Nat.le_of_not_lt hlen)).symm

/-- Folding a whole sequence of commits: the resulting history is the last
`max_history` elements of the full chronological sequence. -/
theorem commitAll_history (h : ConversationHistory)
    (ts : List (String × String × String × Nat))
    (hcap : h.max_history ≠ 0) (hlen : h.history.length ≤ h.max_history) :
    (commitAll h ts).max_history = h.max_history ∧
    (commitAll h ts).history =
      (h.history ++ ts.map mkInteraction).rtake h.max_history := by
  induction ts generalizing h with
  | nil =>
    refine ⟨rfl, ?_⟩
    simp only [commitAll, List.map_nil, List.append_nil]
    exact (rtake_all _ _ hlen).symm
  | cons x ts ih =>
    rcases x with ⟨q, r, a, t⟩
    have hmax := add_interaction_max h q r a t
    have hhist := add_interaction_history h q r a t hcap
    have hlen2 : (add_interaction h q r a t).history.length ≤
        (add_interaction h q r a t).max_history := by
      rw [hmax, hhist, length_rtake]
      omega
    have hcap2 : (add_interaction h q r a t).max_history ≠ 0 := by
      rw [hmax]; exact hcap
    have key := ih (add_interaction h q r a t) hcap2 hlen2
    refine ⟨?_, ?_⟩
    · show (commitAll (add_interaction h q r a t) ts).max_history = h.max_history
      rw [key.1, hmax]
    · show (commitAll (add_interaction h q r a t) ts).history =
        (h.history ++ (mkInteraction (q, r, a, t) :: ts.map mkInteraction)).rtake h.max_history
      rw [key.2, hmax, hhist, rtake_append_left, List.append_assoc, List.singleton_append]

/-- Claim C3 counterexample: with capacity `0` (allowed by the constructor),
Python's `self.history[-0:]` is the whole list, so after one commit the
history has length `1 > 0` — the length bound fails at capacity zero. -/
theorem C3_counterexample :
    ¬ ((add_interaction { history := [], max_history := 0 } "q" "r" "a" 0).history.length ≤
        (add_interaction { history := [], max_history := 0 } "q" "r" "a" 0).max_history) := by
  decide

/-- Claim C3 (amended with positive capacity): for every positive capacity,
every starting history within the bound and every sequence of commits, the
capacity is unchanged, the resulting history is exactly the most recent
`max_history` entries of the full chronological sequence (FIFO eviction,
insertion order preserved), its length never exceeds the capacity, and once
the total number of entries reaches the capacity it is exactly the capacity. -/
theorem C3_fifo_bounded_history (h : ConversationHistory)
    (ts : List (String × String × String × Nat))
    (hcap : 0 < h.max_history) (hlen : h.history.length ≤ h.max_history) :
    (commitAll h ts).max_history = h.max_history ∧
    (commitAll h ts).history =
      (h.history ++ ts.map mkInteraction).rtake h.max_history ∧
    (commitAll h ts).history.length ≤ h.max_history ∧
    (h.max_history ≤ (h.history ++ ts.map mkInteraction).length →
        (commitAll h ts).history.length = h.max_history) := by
  have key := commitAll_history h ts (Nat.pos_iff_ne_zero.mp hcap) hlen
  refine ⟨key.1, key.2, ?_, ?_⟩
  · rw [key.2, length_rtake]
    omega
  · intro htot
    rw [key.2, length_rtake]
    omega

theorem C3_fifo_bounded_history_witness :
    (commitAll { history := [], max_history := 2 }
        [("q1", "r1", "a1", 1), ("q2", "r2", "a2", 2), ("q3", "r3", "a3", 3)]).max_history = 2 ∧
    (commitAll { history := [], max_history := 2 }
        [("q1", "r1", "a1", 1), ("q2", "r2", "a2", 2), ("q3", "r3", "a3", 3)]).history =
      (([] : List Interaction) ++
        [("q1", "r1", "a1", 1), ("q2", "r2", "a2", 2), ("q3", "r3", "a3", 3)].map
          mkInteraction).rtake 2 ∧
    (commitAll { history := [], max_history := 2 }
        [("q1", "r1", "a1", 1), ("q2", "r2", "a2", 2), ("q3", "r3", "a3", 3)]).history.length ≤ 2 ∧
    (commitAll { history := [], max_history := 2 }
        [("q1", "r1", "a1", 1), ("q2", "r2", "a2", 2), ("q3", "r3", "a3", 3)]).history.length = 2 :=
  ⟨(C3_fifo_bounded_history { history := [], max_history := 2 } _ (by decide) (by decide)).1,
   (C3_fifo_bounded_history { history := [], max_history := 2 } _ (by decide) (by decide)).2.1,
   (C3_fifo_bounded_history { history := [], max_history := 2 } _ (by decide) (by decide)).2.2.1,
   (C3_fifo_bounded_history { history := [], max_history := 2 } _ (by decide) (by decide)).2.2.2
     (by decide)⟩
